import Mathlib

/-
Shallow embedding of `src/ts_js-space/decorator_example.js`.

The file defines two decorators over an asynchronous producer:

  retryRequest(fn, maxRetries = 3, baseDelay = 300)
    loops `for (attempt = 0; attempt < maxRetries; attempt++)`, returning
    `fn(...args)` on success; on failure it throws
    `Failed after ${maxRetries} attempts: ${err.message}` when
    `attempt === maxRetries - 1`, otherwise waits `baseDelay * 2 ** attempt`
    milliseconds and retries.

  cacheRequest(fn, ttl = 5000)
    keeps `cache` (initially null) and `timestamp` (initially 0); a call reads
    `now`, returns `cache` when `cache && now - timestamp < ttl`, otherwise
    invokes `fn(...args)`, stores the result and `now`, and returns it.

  enhanced = cacheRequest(retryRequest(fetchData))

JavaScript values are modelled by `JSVal` (with JS truthiness, which the
cache-hit test uses); a producer's behaviour is a function from the
invocation index and the argument list to success or an error message; an
invocation is modelled as a `Trace` that records the result, every underlying
call (attempt index and arguments) and every backoff delay.  Time is an
integer count of milliseconds passed in explicitly (the JS reads Date.now()).
-/

set_option autoImplicit false

namespace DecoratorSpec

/-- A JavaScript value, as far as this program distinguishes them: the
cache-hit test `if (cache && ...)` branches on truthiness. -/
inductive JSVal where
  | undefined
  | null
  | bool (b : Bool)
  | num (n : Int)
  | str (s : String)
  | arr (n : Nat)
  deriving DecidableEq, Repr

/-- JS truthiness: `undefined`, `null`, `false`, `0` and `""` are falsy;
every object (here: any array, tagged by an id) is truthy. -/
def JSVal.truthy : JSVal → Bool
  | .undefined => false
  | .null => false
  | .bool b => b
  | .num n => n != 0
  | .str s => s != ""
  | .arr _ => true

/-- What one invocation of a (wrapped) producer did: its outcome, the
underlying calls it made (attempt index and the argument list passed), and
the backoff delays it suspended for, in order. -/
structure Trace where
  result : Except String JSVal
  calls  : List (Nat × List JSVal)
  delays : List Int
  deriving Repr

/-- The state captured by `cacheRequest`'s closure: `let cache = null` and
`let timestamp = 0`. -/
structure CacheState where
  cache : JSVal
  timestamp : Int
  deriving DecidableEq, Repr

/-- The closure state at construction time. -/
def initialCacheState : CacheState := ⟨JSVal.null, 0⟩

/-- The message of the terminal error:
`Failed after ${maxRetries} attempts: ${err.message}`. -/
def exhaustedMsg (maxRetries : Int) (msg : String) : String :=
  "Failed after " ++ toString maxRetries ++ " attempts: " ++ msg

/-- The `for` loop of `retryRequest`.  `fn i args` is the outcome of the
`i`-th underlying invocation; `fuel` is the number of loop iterations left,
`maxRetries.toNat - attempt` throughout.  Falling out of the loop (only
possible when `maxRetries <= 0`) returns `undefined`. -/
def retryLoop (fn : Nat → List JSVal → Except String JSVal) (maxRetries : Int)
    (baseDelay : Int) (args : List JSVal) : Nat → Nat → Trace
  | _, 0 => ⟨Except.ok JSVal.undefined, [], []⟩
  | attempt, fuel + 1 =>
    match fn attempt args with
    | Except.ok v => ⟨Except.ok v, [(attempt, args)], []⟩
    | Except.error msg =>
      if (attempt : Int) = maxRetries - 1 then
        ⟨Except.error (exhaustedMsg maxRetries msg), [(attempt, args)], []⟩
      else
        let rest := retryLoop fn maxRetries baseDelay args (attempt + 1) fuel
        ⟨rest.result, (attempt, args) :: rest.calls, baseDelay * 2 ^ attempt :: rest.delays⟩

/-- `retryRequest(fn, maxRetries, baseDelay)` applied to `args`: run the loop
from `attempt = 0`.  (JS defaults: `maxRetries = 3`, `baseDelay = 300`.) -/
def retryRequest (fn : Nat → List JSVal → Except String JSVal) (maxRetries : Int)
    (baseDelay : Int) (args : List JSVal) : Trace :=
  retryLoop fn maxRetries baseDelay args 0 maxRetries.toNat

/-- One call of the producer returned by `cacheRequest(fn, ttl)`, with the
closure state `st` passed explicitly and `now` the value `Date.now()` read at
entry.  The wrapped `fn` is itself modelled as producing a `Trace`, so that
the underlying calls and delays of the whole invocation are observable.
Returns the invocation's trace and the closure state after the call.
(JS default: `ttl = 5000`.) -/
def cacheRequest (fn : List JSVal → Trace) (ttl : Int) (st : CacheState)
    (now : Int) (args : List JSVal) : Trace × CacheState :=
  if st.cache.truthy ∧ now - st.timestamp < ttl then
    (⟨Except.ok st.cache, [], []⟩, st)
  else
    let t := fn args
    match t.result with
    | Except.error _ => (t, st)
    | Except.ok v => (t, ⟨v, now⟩)

/-- A producer with no wrapper of its own (e.g. `fetchData`), lifted to the
traced form: one underlying call, no delays. -/
def pureProducer (p : List JSVal → Except String JSVal) : List JSVal → Trace :=
  fun args => ⟨p args, [(0, args)], []⟩

/-- The composition `enhanced = cacheRequest(retryRequest(base))`. -/
def enhanced (base : Nat → List JSVal → Except String JSVal)
    (maxRetries baseDelay ttl : Int) (st : CacheState) (now : Int)
    (args : List JSVal) : Trace × CacheState :=
  cacheRequest (retryRequest base maxRetries baseDelay) ttl st now args

/-- Sample producer: fails on invocation 0, succeeds from invocation 1 on. -/
def failThenOk : Nat → List JSVal → Except String JSVal :=
  fun i _ => if i = 0 then Except.error "boom" else Except.ok (JSVal.num 7)

/-- Sample producer: fails on every invocation with a distinct message. -/
def alwaysFail : Nat → List JSVal → Except String JSVal :=
  fun i _ => Except.error ("e" ++ toString i)

/-- Sample producer: always succeeds with the truthy value `num 7`. -/
def okSeven : List JSVal → Except String JSVal :=
  fun _ => Except.ok (JSVal.num 7)

/-- Sample producer: always succeeds with the falsy value `num 0`. -/
def okZero : List JSVal → Except String JSVal :=
  fun _ => Except.ok (JSVal.num 0)

/-- Sample producer: always fails with message `boom`. -/
def failBoom : List JSVal → Except String JSVal :=
  fun _ => Except.error "boom"

/-! ### Basic cache lemmas -/

/-- On a fresh hit (`cache && now - timestamp < ttl`), `cacheRequest` returns
the cached value, performs no underlying call and no delay, and leaves the
state unchanged. -/
lemma cacheRequest_hit (fn : List JSVal → Trace) (ttl : Int) (st : CacheState)
    (now : Int) (args : List JSVal)
    (hhit : st.cache.truthy ∧ now - st.timestamp < ttl) :
    cacheRequest fn ttl st now args = (⟨Except.ok st.cache, [], []⟩, st) := by
  unfold cacheRequest
  rw [if_pos hhit]

/-- On a miss, `cacheRequest` runs the wrapped producer on the caller's
arguments; the new state stores the result on success and is unchanged on
failure. -/
lemma cacheRequest_miss (fn : List JSVal → Trace) (ttl : Int) (st : CacheState)
    (now : Int) (args : List JSVal)
    (hmiss : ¬(st.cache.truthy ∧ now - st.timestamp < ttl)) :
    (cacheRequest fn ttl st now args).1 = fn args ∧
    (cacheRequest fn ttl st now args).2 =
      (match (fn args).result with
       | Except.ok v => (⟨v, now⟩ : CacheState)
       | Except.error _ => st) := by
  unfold cacheRequest
  rw [if_neg hmiss]
  rcases h : (fn args).result with v | m <;> simp [h]

/-- An absent entry (`cache = null`) or an age at or past `ttl` fails the
hit test. -/
lemma miss_of_null_or_stale (st : CacheState) (now ttl : Int)
    (h : st.cache = JSVal.null ∨ ttl ≤ now - st.timestamp) :
    ¬(st.cache.truthy ∧ now - st.timestamp < ttl) := by
  rintro ⟨ht, hlt⟩
  rcases h with h | h
  · rw [h] at ht
    simp [JSVal.truthy] at ht
  · omega

/-! ### Claim theorems: cache wrapper -/

/-- C1 (counterexample to the claim as stated): the cache-hit test is the JS
truthiness of `cache`, so a falsy successful value is never served from the
cache.  With a producer that succeeds with `0` (`ttl = 5000`): the first call
at `now = 0` succeeds and stores `{value: 0, storedAt: 0}`, yet the second
call at `now = 1` — well within `ttl` — still performs one underlying call
instead of zero. -/
theorem cacheRequest_falsy_cex :
    (cacheRequest (pureProducer okZero) 5000 initialCacheState 0 []).1.result =
      Except.ok (JSVal.num 0) ∧
    (cacheRequest (pureProducer okZero) 5000 initialCacheState 0 []).2 =
      ⟨JSVal.num 0, 0⟩ ∧
    (cacheRequest (pureProducer okZero) 5000 ⟨JSVal.num 0, 0⟩ 1 []).1.calls.length
      = 1 :=
  ⟨rfl, rfl, rfl⟩

/-- C1 (amended: the successful value must be truthy): after a call that
misses and succeeds with a truthy value `v`, the slot holds `⟨v, now1⟩`; a
second call within `ttl` milliseconds returns exactly the cached `v` with
zero underlying calls, leaving the state unchanged. -/
theorem cacheRequest_fresh_hit_after_success (p : List JSVal → Except String JSVal)
    (v : JSVal) (ttl : Int) (st0 : CacheState) (now1 now2 : Int)
    (args1 args2 : List JSVal)
    (hmiss : ¬(st0.cache.truthy ∧ now1 - st0.timestamp < ttl))
    (hok : p args1 = Except.ok v) (htruthy : v.truthy = true)
    (hfresh : now2 - now1 < ttl) :
    (cacheRequest (pureProducer p) ttl st0 now1 args1).1.result = Except.ok v ∧
    (cacheRequest (pureProducer p) ttl st0 now1 args1).1.calls.length = 1 ∧
    (cacheRequest (pureProducer p) ttl st0 now1 args1).2 = ⟨v, now1⟩ ∧
    cacheRequest (pureProducer p) ttl ⟨v, now1⟩ now2 args2 =
      (⟨Except.ok v, [], []⟩, ⟨v, now1⟩) := by
  obtain ⟨h1, h2⟩ := cacheRequest_miss (pureProducer p) ttl st0 now1 args1 hmiss
  have hres : (pureProducer p args1).result = Except.ok v := hok
  refine ⟨?_, ?_, ?_, ?_⟩
  · rw [h1]; exact hres
  · rw [h1]; rfl
  · rw [h2, hres]
  · exact cacheRequest_hit _ ttl ⟨v, now1⟩ now2 args2 ⟨htruthy, hfresh⟩

/-- Witness for C1 (amended), at `p = okSeven`, `ttl = 5000`, initial state,
first call at `now = 0`, second at `now = 1`. -/
theorem cacheRequest_fresh_hit_after_success_witness :
    (cacheRequest (pureProducer okSeven) 5000 initialCacheState 0 []).1.result =
      Except.ok (JSVal.num 7) ∧
    (cacheRequest (pureProducer okSeven) 5000 initialCacheState 0 []).1.calls.length = 1 ∧
    (cacheRequest (pureProducer okSeven) 5000 initialCacheState 0 []).2 =
      ⟨JSVal.num 7, 0⟩ ∧
    cacheRequest (pureProducer okSeven) 5000 ⟨JSVal.num 7, 0⟩ 1 [] =
      (⟨Except.ok (JSVal.num 7), [], []⟩, ⟨JSVal.num 7, 0⟩) :=
  cacheRequest_fresh_hit_after_success okSeven (JSVal.num 7) 5000
    initialCacheState 0 1 [] [] (by decide) rfl (by decide) (by decide)

/-- C4: a failure of the wrapped producer during a refresh is propagated
unchanged (whatever the message, including a `RetryExhausted` one), and the
cache slot after the call is exactly the state before it. -/
theorem cacheRequest_error_passthrough (fn : List JSVal → Trace) (ttl : Int)
    (st : CacheState) (now : Int) (args : List JSVal) (e : String)
    (hmiss : ¬(st.cache.truthy ∧ now - st.timestamp < ttl))
    (herr : (fn args).result = Except.error e) :
    (cacheRequest fn ttl st now args).1.result = Except.error e ∧
    (cacheRequest fn ttl st now args).2 = st := by
  obtain ⟨h1, h2⟩ := cacheRequest_miss fn ttl st now args hmiss
  constructor
  · rw [h1, herr]
  · rw [h2, herr]

/-- Witness for C4: a producer failing with `boom` (the message shape does
not matter), stale initial state. -/
theorem cacheRequest_error_passthrough_witness :
    (cacheRequest (pureProducer failBoom) 5000 initialCacheState 0 []).1.result =
      Except.error "boom" ∧
    (cacheRequest (pureProducer failBoom) 5000 initialCacheState 0 []).2 =
      initialCacheState :=
  cacheRequest_error_passthrough (pureProducer failBoom) 5000
    initialCacheState 0 [] "boom" (by decide) rfl

/-- C7: when the entry is absent (`cache = null`) or its age is at or past
`ttl`, the call invokes the wrapped producer exactly once and, on success,
overwrites the stored value and timestamp with `⟨v, now⟩`; moreover `ttl = 0`
forces a refresh on every call (given that the clock does not run backwards
past the stored timestamp). -/
theorem cacheRequest_stale_refresh (p : List JSVal → Except String JSVal)
    (ttl : Int) (st : CacheState) (now : Int) (args : List JSVal)
    (habs : st.cache = JSVal.null ∨ ttl ≤ now - st.timestamp) :
    ((cacheRequest (pureProducer p) ttl st now args).1.calls.length = 1 ∧
      ∀ v, p args = Except.ok v →
        (cacheRequest (pureProducer p) ttl st now args).1.result = Except.ok v ∧
        (cacheRequest (pureProducer p) ttl st now args).2 = ⟨v, now⟩) ∧
    ∀ st2 : CacheState, ∀ now2 : Int, st2.timestamp ≤ now2 →
      (cacheRequest (pureProducer p) 0 st2 now2 args).1.calls.length = 1 := by
  constructor
  · obtain ⟨h1, h2⟩ := cacheRequest_miss (pureProducer p) ttl st now args
      (miss_of_null_or_stale st now ttl habs)
    refine ⟨by rw [h1]; rfl, ?_⟩
    intro v hv
    have hres : (pureProducer p args).result = Except.ok v := hv
    exact ⟨by rw [h1]; exact hres, by rw [h2, hres]⟩
  · intro st2 now2 hmono
    obtain ⟨h1, _⟩ := cacheRequest_miss (pureProducer p) 0 st2 now2 args
      (miss_of_null_or_stale st2 now2 0 (Or.inr (by omega)))
    rw [h1]
    rfl

/-- Witness for C7: absent entry, `ttl = 5000`, producer succeeding with
`num 7`; and the `ttl = 0` part at a stored timestamp `0`, call at `3`. -/
theorem cacheRequest_stale_refresh_witness :
    (((cacheRequest (pureProducer okSeven) 5000 initialCacheState 9 []).1.calls.length = 1 ∧
      ∀ v, okSeven [] = Except.ok v →
        (cacheRequest (pureProducer okSeven) 5000 initialCacheState 9 []).1.result = Except.ok v ∧
        (cacheRequest (pureProducer okSeven) 5000 initialCacheState 9 []).2 = ⟨v, 9⟩) ∧
    ∀ st2 : CacheState, ∀ now2 : Int, st2.timestamp ≤ now2 →
      (cacheRequest (pureProducer okSeven) 0 st2 now2 []).1.calls.length = 1) ∧
    (3 : Int) ≤ 3 ∧
    (cacheRequest (pureProducer okSeven) 0 ⟨JSVal.num 7, 3⟩ 3 []).1.calls.length = 1 := by
  have h := cacheRequest_stale_refresh okSeven 5000 initialCacheState 9 []
    (Or.inl rfl)
  exact ⟨h, by omega, h.2 ⟨JSVal.num 7, 3⟩ 3 (by decide)⟩

/-! ### Claim theorems: composition -/

/-- C3: for `enhanced = cacheRequest (retryRequest base)`, an invocation that
hits a fresh cache entry returns the cached value with zero calls to `base`
and zero backoff delays, before any retry machinery runs, and leaves the
state unchanged. -/
theorem enhanced_hit_no_retry (base : Nat → List JSVal → Except String JSVal)
    (maxRetries baseDelay ttl : Int) (st : CacheState) (now : Int)
    (args : List JSVal) (hhit : st.cache.truthy ∧ now - st.timestamp < ttl) :
    enhanced base maxRetries baseDelay ttl st now args =
      (⟨Except.ok st.cache, [], []⟩, st) :=
  cacheRequest_hit (retryRequest base maxRetries baseDelay) ttl st now args hhit

/-- Witness for C3: a fresh truthy entry (`arr 0` stored at time `0`), call
at `now = 100` with `ttl = 5000`, over an always-failing base: no base call,
no delay. -/
theorem enhanced_hit_no_retry_witness :
    enhanced alwaysFail 3 300 5000 ⟨JSVal.arr 0, 0⟩ 100 [] =
      (⟨Except.ok (JSVal.arr 0), [], []⟩, ⟨JSVal.arr 0, 0⟩) :=
  enhanced_hit_no_retry alwaysFail 3 300 5000 ⟨JSVal.arr 0, 0⟩ 100 []
    (by decide)

/-! ### Claim theorems: retry wrapper, non-inductive -/

/-- C9: with `maxRetries ≤ 0` the `for` loop body never runs, so the wrapped
producer is never invoked and the call resolves successfully with
`undefined`, raising no error. -/
theorem retryRequest_nonpositive_noop (fn : Nat → List JSVal → Except String JSVal)
    (maxRetries baseDelay : Int) (args : List JSVal) (h : maxRetries ≤ 0) :
    retryRequest fn maxRetries baseDelay args =
      ⟨Except.ok JSVal.undefined, [], []⟩ := by
  unfold retryRequest
  rw [Int.toNat_of_nonpos h]
  rfl

/-- Witness for C9 at `maxRetries = -3`. -/
theorem retryRequest_nonpositive_noop_witness :
    retryRequest alwaysFail (-3) 300 [] = ⟨Except.ok JSVal.undefined, [], []⟩ :=
  retryRequest_nonpositive_noop alwaysFail (-3) 300 [] (by decide)

/-! ### Retry loop unfolding equations -/

/-- Zero fuel: the loop body never runs; JS falls off the `for` loop and the
async function resolves with `undefined`. -/
lemma retryLoop_zero (fn : Nat → List JSVal → Except String JSVal)
    (maxRetries baseDelay : Int) (args : List JSVal) (attempt : Nat) :
    retryLoop fn maxRetries baseDelay args attempt 0 =
      ⟨Except.ok JSVal.undefined, [], []⟩ := rfl

/-- A successful attempt returns its value at once. -/
lemma retryLoop_succ_ok (fn : Nat → List JSVal → Except String JSVal)
    (maxRetries baseDelay : Int) (args : List JSVal) (attempt fuel : Nat)
    (v : JSVal) (h : fn attempt args = Except.ok v) :
    retryLoop fn maxRetries baseDelay args attempt (fuel + 1) =
      ⟨Except.ok v, [(attempt, args)], []⟩ := by
  conv_lhs => rw [retryLoop]
  rw [h]

/-- A failure on the last attempt (`attempt === maxRetries - 1`) throws the
terminal exhaustion error. -/
lemma retryLoop_succ_err_last (fn : Nat → List JSVal → Except String JSVal)
    (maxRetries baseDelay : Int) (args : List JSVal) (attempt fuel : Nat)
    (m : String) (h : fn attempt args = Except.error m)
    (hc : (attempt : Int) = maxRetries - 1) :
    retryLoop fn maxRetries baseDelay args attempt (fuel + 1) =
      ⟨Except.error (exhaustedMsg maxRetries m), [(attempt, args)], []⟩ := by
  conv_lhs => rw [retryLoop]
  rw [h]
  simp only [if_pos hc]

/-- A failure before the last attempt waits `baseDelay * 2 ^ attempt` and
continues with the next attempt. -/
lemma retryLoop_succ_err_cont (fn : Nat → List JSVal → Except String JSVal)
    (maxRetries baseDelay : Int) (args : List JSVal) (attempt fuel : Nat)
    (m : String) (h : fn attempt args = Except.error m)
    (hc : ¬((attempt : Int) = maxRetries - 1)) :
    retryLoop fn maxRetries baseDelay args attempt (fuel + 1) =
      ⟨(retryLoop fn maxRetries baseDelay args (attempt + 1) fuel).result,
       (attempt, args) ::
         (retryLoop fn maxRetries baseDelay args (attempt + 1) fuel).calls,
       baseDelay * 2 ^ attempt ::
         (retryLoop fn maxRetries baseDelay args (attempt + 1) fuel).delays⟩ := by
  conv_lhs => rw [retryLoop]
  rw [h]
  simp only [if_neg hc]

/-- A producer failing on every attempt drives the loop through all its
remaining iterations: attempts `attempt, …, attempt + f`, a delay after each
attempt but the last, and the terminal error built from the last message. -/
lemma retryLoop_allFail (fn : Nat → List JSVal → Except String JSVal)
    (maxRetries baseDelay : Int) (args : List JSVal) (errMsg : Nat → String)
    (hfail : ∀ i, fn i args = Except.error (errMsg i)) :
    ∀ f attempt : Nat, (attempt : Int) + ((f : Int) + 1) = maxRetries →
      retryLoop fn maxRetries baseDelay args attempt (f + 1) =
        ⟨Except.error (exhaustedMsg maxRetries (errMsg (attempt + f))),
         (List.range' attempt (f + 1)).map (fun j => (j, args)),
         (List.range' attempt f).map (fun j => baseDelay * 2 ^ j)⟩ := by
  intro f
  induction f with
  | zero =>
    intro attempt hsum
    have hc : (attempt : Int) = maxRetries - 1 := by omega
    rw [retryLoop_succ_err_last fn maxRetries baseDelay args attempt 0
      (errMsg attempt) (hfail attempt) hc]
    simp [List.range']
  | succ f ih =>
    intro attempt hsum
    have hc : ¬((attempt : Int) = maxRetries - 1) := by omega
    have hrec := ih (attempt + 1) (by push_cast; push_cast at hsum; omega)
    rw [retryLoop_succ_err_cont fn maxRetries baseDelay args attempt (f + 1)
      (errMsg attempt) (hfail attempt) hc, hrec]
    have h1 : attempt + 1 + f = attempt + (f + 1) := by omega
    simp [h1, List.range'_succ]

/-- A producer that fails strictly before index `s` and succeeds at `s`
makes the loop return the success value after exactly `s - attempt + 1`
underlying calls. -/
lemma retryLoop_succAt (fn : Nat → List JSVal → Except String JSVal)
    (maxRetries baseDelay : Int) (args : List JSVal) (s : Nat) (v : JSVal)
    (hpre : ∀ j, j < s → ∃ m, fn j args = Except.error m)
    (hsucc : fn s args = Except.ok v) :
    ∀ f attempt : Nat, attempt ≤ s → s ≤ attempt + f →
      (attempt : Int) + ((f : Int) + 1) = maxRetries →
      (retryLoop fn maxRetries baseDelay args attempt (f + 1)).result =
        Except.ok v ∧
      (retryLoop fn maxRetries baseDelay args attempt (f + 1)).calls.length =
        s - attempt + 1 := by
  intro f
  induction f with
  | zero =>
    intro attempt hle hge hsum
    have heq : attempt = s := by omega
    subst heq
    rw [retryLoop_succ_ok fn maxRetries baseDelay args attempt 0 v hsucc]
    simp
  | succ f ih =>
    intro attempt hle hge hsum
    rcases Nat.eq_or_lt_of_le hle with heq | hlt
    · subst heq
      rw [retryLoop_succ_ok fn maxRetries baseDelay args attempt (f + 1) v hsucc]
      simp
    · obtain ⟨m, hm⟩ := hpre attempt hlt
      have hc : ¬((attempt : Int) = maxRetries - 1) := by omega
      have hrec := ih (attempt + 1) hlt (by omega)
        (by push_cast; push_cast at hsum; omega)
      rw [retryLoop_succ_err_cont fn maxRetries baseDelay args attempt (f + 1)
        m hm hc]
      refine ⟨hrec.1, ?_⟩
      simp only [List.length_cons, hrec.2]
      omega

/-- Every recorded backoff delay is `baseDelay * 2 ^ j` for the attempt `j`
it followed; delays appear in attempt order starting at the entry attempt. -/
lemma retryLoop_delays_getD (fn : Nat → List JSVal → Except String JSVal)
    (maxRetries baseDelay : Int) (args : List JSVal) :
    ∀ fuel attempt i : Nat,
      i < (retryLoop fn maxRetries baseDelay args attempt fuel).delays.length →
      (retryLoop fn maxRetries baseDelay args attempt fuel).delays.getD i 0 =
        baseDelay * 2 ^ (attempt + i) := by
  intro fuel
  induction fuel with
  | zero =>
    intro attempt i h
    rw [retryLoop_zero] at h
    simp at h
  | succ k ih =>
    intro attempt i h
    rcases hfa : fn attempt args with m | v
    · by_cases hc : (attempt : Int) = maxRetries - 1
      · rw [retryLoop_succ_err_last fn maxRetries baseDelay args attempt k
          m hfa hc] at h
        simp at h
      · rw [retryLoop_succ_err_cont fn maxRetries baseDelay args attempt k
          m hfa hc] at h ⊢
        rcases i with _ | i
        · simp
        · simp only [List.getD_cons_succ]
          simp only [List.length_cons, Nat.succ_lt_succ_iff] at h
          rw [ih (attempt + 1) i h]
          have h1 : attempt + 1 + i = attempt + (i + 1) := by omega
          rw [h1]
    · rw [retryLoop_succ_ok fn maxRetries baseDelay args attempt k v hfa] at h
      simp at h

/-- The attempt indices of the underlying calls are consecutive, starting at
the loop's entry attempt. -/
lemma retryLoop_calls_map_fst (fn : Nat → List JSVal → Except String JSVal)
    (maxRetries baseDelay : Int) (args : List JSVal) :
    ∀ fuel attempt : Nat,
      (retryLoop fn maxRetries baseDelay args attempt fuel).calls.map Prod.fst =
        List.range' attempt
          (retryLoop fn maxRetries baseDelay args attempt fuel).calls.length := by
  intro fuel
  induction fuel with
  | zero =>
    intro attempt
    rw [retryLoop_zero]
    simp
  | succ k ih =>
    intro attempt
    rcases hfa : fn attempt args with m | v
    · by_cases hc : (attempt : Int) = maxRetries - 1
      · rw [retryLoop_succ_err_last fn maxRetries baseDelay args attempt k
          m hfa hc]
        simp [List.range']
      · rw [retryLoop_succ_err_cont fn maxRetries baseDelay args attempt k
          m hfa hc]
        simp only [List.map_cons, List.length_cons, List.range'_succ]
        rw [ih (attempt + 1)]
    · rw [retryLoop_succ_ok fn maxRetries baseDelay args attempt k v hfa]
      simp [List.range']

/-- Every underlying call receives exactly the caller's argument list. -/
lemma retryLoop_calls_map_snd (fn : Nat → List JSVal → Except String JSVal)
    (maxRetries baseDelay : Int) (args : List JSVal) :
    ∀ fuel attempt : Nat,
      (retryLoop fn maxRetries baseDelay args attempt fuel).calls.map Prod.snd =
        List.replicate
          (retryLoop fn maxRetries baseDelay args attempt fuel).calls.length
          args := by
  intro fuel
  induction fuel with
  | zero =>
    intro attempt
    rw [retryLoop_zero]
    simp
  | succ k ih =>
    intro attempt
    rcases hfa : fn attempt args with m | v
    · by_cases hc : (attempt : Int) = maxRetries - 1
      · rw [retryLoop_succ_err_last fn maxRetries baseDelay args attempt k
          m hfa hc]
        simp
      · rw [retryLoop_succ_err_cont fn maxRetries baseDelay args attempt k
          m hfa hc]
        simp only [List.map_cons, List.length_cons, List.replicate_succ]
        rw [ih (attempt + 1)]
    · rw [retryLoop_succ_ok fn maxRetries baseDelay args attempt k v hfa]
      simp

/-- The loop makes at most `fuel` underlying calls. -/
lemma retryLoop_calls_length_le (fn : Nat → List JSVal → Except String JSVal)
    (maxRetries baseDelay : Int) (args : List JSVal) :
    ∀ fuel attempt : Nat,
      (retryLoop fn maxRetries baseDelay args attempt fuel).calls.length ≤
        fuel := by
  intro fuel
  induction fuel with
  | zero =>
    intro attempt
    rw [retryLoop_zero]
    simp
  | succ k ih =>
    intro attempt
    rcases hfa : fn attempt args with m | v
    · by_cases hc : (attempt : Int) = maxRetries - 1
      · rw [retryLoop_succ_err_last fn maxRetries baseDelay args attempt k
          m hfa hc]
        simp
      · rw [retryLoop_succ_err_cont fn maxRetries baseDelay args attempt k
          m hfa hc]
        simp only [List.length_cons]
        have := ih (attempt + 1)
        omega
    · rw [retryLoop_succ_ok fn maxRetries baseDelay args attempt k v hfa]
      simp

/-- With at least one iteration of fuel left, the loop makes at least one
underlying call. -/
lemma retryLoop_calls_length_pos (fn : Nat → List JSVal → Except String JSVal)
    (maxRetries baseDelay : Int) (args : List JSVal) (f attempt : Nat) :
    1 ≤ (retryLoop fn maxRetries baseDelay args attempt (f + 1)).calls.length := by
  rcases hfa : fn attempt args with m | v
  · by_cases hc : (attempt : Int) = maxRetries - 1
    · rw [retryLoop_succ_err_last fn maxRetries baseDelay args attempt f
        m hfa hc]
      simp
    · rw [retryLoop_succ_err_cont fn maxRetries baseDelay args attempt f
        m hfa hc]
      simp
  · rw [retryLoop_succ_ok fn maxRetries baseDelay args attempt f v hfa]
    simp

/-- Every underlying call except possibly the last one failed: the loop only
continues past a call on failure. -/
lemma retryLoop_nonfinal_fail (fn : Nat → List JSVal → Except String JSVal)
    (maxRetries baseDelay : Int) (args : List JSVal) :
    ∀ fuel attempt j : Nat,
      j + 1 < (retryLoop fn maxRetries baseDelay args attempt fuel).calls.length →
      ∃ m, fn (attempt + j) args = Except.error m := by
  intro fuel
  induction fuel with
  | zero =>
    intro attempt j h
    rw [retryLoop_zero] at h
    simp at h
  | succ k ih =>
    intro attempt j h
    rcases hfa : fn attempt args with m | v
    · by_cases hc : (attempt : Int) = maxRetries - 1
      · rw [retryLoop_succ_err_last fn maxRetries baseDelay args attempt k
          m hfa hc] at h
        simp at h
      · rw [retryLoop_succ_err_cont fn maxRetries baseDelay args attempt k
          m hfa hc] at h
        simp only [List.length_cons, Nat.succ_lt_succ_iff] at h
        rcases j with _ | j
        · exact ⟨m, by simpa using hfa⟩
        · have h1 : attempt + (j + 1) = attempt + 1 + j := by omega
          rw [h1]
          exact ih (attempt + 1) j (by omega)
    · rw [retryLoop_succ_ok fn maxRetries baseDelay args attempt k v hfa] at h
      simp at h

/-- The loop's outcome is decided by its last underlying call: a success
returns that value; a failure on the last iteration yields the terminal
exhaustion error, with the full budget consumed. -/
lemma retryLoop_last_decides (fn : Nat → List JSVal → Except String JSVal)
    (maxRetries baseDelay : Int) (args : List JSVal) :
    ∀ f attempt : Nat, (attempt : Int) + ((f : Int) + 1) = maxRetries →
      (∃ v,
        fn (attempt +
          ((retryLoop fn maxRetries baseDelay args attempt (f + 1)).calls.length
            - 1)) args = Except.ok v ∧
        (retryLoop fn maxRetries baseDelay args attempt (f + 1)).result =
          Except.ok v) ∨
      (∃ m,
        fn (attempt +
          ((retryLoop fn maxRetries baseDelay args attempt (f + 1)).calls.length
            - 1)) args = Except.error m ∧
        (retryLoop fn maxRetries baseDelay args attempt (f + 1)).result =
          Except.error (exhaustedMsg maxRetries m) ∧
        (retryLoop fn maxRetries baseDelay args attempt (f + 1)).calls.length =
          f + 1) := by
  intro f
  induction f with
  | zero =>
    intro attempt hsum
    have hc : (attempt : Int) = maxRetries - 1 := by omega
    rcases hfa : fn attempt args with m | v
    · rw [retryLoop_succ_err_last fn maxRetries baseDelay args attempt 0
        m hfa hc]
      refine Or.inr ⟨m, ?_, rfl, rfl⟩
      simpa using hfa
    · rw [retryLoop_succ_ok fn maxRetries baseDelay args attempt 0 v hfa]
      refine Or.inl ⟨v, ?_, rfl⟩
      simpa using hfa
  | succ f ih =>
    intro attempt hsum
    rcases hfa : fn attempt args with m | v
    · have hc : ¬((attempt : Int) = maxRetries - 1) := by omega
      have hrec := ih (attempt + 1) (by push_cast; push_cast at hsum; omega)
      have hpos := retryLoop_calls_length_pos fn maxRetries baseDelay args f
        (attempt + 1)
      rw [retryLoop_succ_err_cont fn maxRetries baseDelay args attempt (f + 1)
        m hfa hc]
      simp only [List.length_cons]
      have hidx : attempt +
          ((retryLoop fn maxRetries baseDelay args (attempt + 1) (f + 1)).calls.length
            + 1 - 1) =
          attempt + 1 +
          ((retryLoop fn maxRetries baseDelay args (attempt + 1) (f + 1)).calls.length
            - 1) := by
        omega
      rw [hidx]
      rcases hrec with ⟨v, hv, hres⟩ | ⟨m2, hm2, hres, hlen⟩
      · exact Or.inl ⟨v, hv, hres⟩
      · exact Or.inr ⟨m2, hm2, hres, by omega⟩
    · rw [retryLoop_succ_ok fn maxRetries baseDelay args attempt (f + 1) v hfa]
      refine Or.inl ⟨v, ?_, rfl⟩
      simpa using hfa

/-- Bridge: for a natural budget `n`, the wrapper is the loop with fuel `n`. -/
lemma retryRequest_eq_loop (fn : Nat → List JSVal → Except String JSVal)
    (baseDelay : Int) (args : List JSVal) (n : Nat) :
    retryRequest fn (n : Int) baseDelay args =
      retryLoop fn (n : Int) baseDelay args 0 n := by
  unfold retryRequest
  simp

/-! ### Claim theorems: retry wrapper -/

/-- C2: with `maxAttempts = n ≥ 1`, an always-failing producer is invoked
exactly `n` times and the call ends in the terminal error
`Failed after n attempts: <last message>` — which mentions `n` attempts and
embeds the last underlying failure's message; `n - 1` backoff delays occur,
so `n = 1` wraps the single failure immediately with no retry. -/
theorem retryRequest_allFail_exhausts (fn : Nat → List JSVal → Except String JSVal)
    (baseDelay : Int) (args : List JSVal) (errMsg : Nat → String) (n : Nat)
    (hn : 1 ≤ n) (hfail : ∀ i, fn i args = Except.error (errMsg i)) :
    (retryRequest fn (n : Int) baseDelay args).calls.length = n ∧
    (retryRequest fn (n : Int) baseDelay args).result =
      Except.error (exhaustedMsg (n : Int) (errMsg (n - 1))) ∧
    (retryRequest fn (n : Int) baseDelay args).delays.length = n - 1 := by
  obtain ⟨f, rfl⟩ : ∃ f, n = f + 1 := ⟨n - 1, by omega⟩
  rw [retryRequest_eq_loop]
  rw [retryLoop_allFail fn _ baseDelay args errMsg hfail f 0 (by push_cast; ring)]
  refine ⟨by simp, by simp, by simp⟩

/-- Witness for C2 at `n = 2`, producer failing with `e0`, `e1`: two calls,
terminal message `Failed after 2 attempts: e1`, one delay. -/
theorem retryRequest_allFail_exhausts_witness :
    (retryRequest alwaysFail ((2 : Nat) : Int) 300 []).calls.length = 2 ∧
    (retryRequest alwaysFail ((2 : Nat) : Int) 300 []).result =
      Except.error "Failed after 2 attempts: e1" ∧
    (retryRequest alwaysFail ((2 : Nat) : Int) 300 []).delays.length = 1 := by
  have h := retryRequest_allFail_exhausts alwaysFail 300 []
    (fun i => "e" ++ toString i) 2 (by norm_num) (fun i => rfl)
  refine ⟨h.1, ?_, h.2.2⟩
  rw [h.2.1]
  rfl

/-- C5: the `i`-th backoff delay of an invocation (the suspension between
attempt `i` and attempt `i + 1`, 0-indexed) is exactly `baseDelay * 2 ^ i`. -/
theorem retryRequest_backoff (fn : Nat → List JSVal → Except String JSVal)
    (maxRetries baseDelay : Int) (args : List JSVal) (i : Nat)
    (h : i < (retryRequest fn maxRetries baseDelay args).delays.length) :
    (retryRequest fn maxRetries baseDelay args).delays.getD i 0 =
      baseDelay * 2 ^ i := by
  unfold retryRequest at h ⊢
  have hg := retryLoop_delays_getD fn maxRetries baseDelay args
    maxRetries.toNat 0 i h
  simpa using hg

/-- Witness for C5: always-failing producer, `maxRetries = 3`,
`baseDelay = 300`; the second delay (index 1) is `300 * 2 ^ 1 = 600`. -/
theorem retryRequest_backoff_witness :
    1 < (retryRequest alwaysFail 3 300 []).delays.length ∧
    (retryRequest alwaysFail 3 300 []).delays.getD 1 0 = 600 := by
  refine ⟨by decide, ?_⟩
  have h := retryRequest_backoff alwaysFail 3 300 [] 1 (by decide)
  simpa using h

/-- C6: a producer that fails on attempts `1 … k-1` and succeeds on attempt
`k` (1-indexed, `k ≤ maxAttempts = n`) is invoked exactly `k` times and the
wrapper returns that success value. -/
theorem retryRequest_succeeds_at_k (fn : Nat → List JSVal → Except String JSVal)
    (baseDelay : Int) (args : List JSVal) (v : JSVal) (n k : Nat)
    (hk : 1 ≤ k) (hkn : k ≤ n)
    (hpre : ∀ j, j < k - 1 → ∃ m, fn j args = Except.error m)
    (hsucc : fn (k - 1) args = Except.ok v) :
    (retryRequest fn (n : Int) baseDelay args).result = Except.ok v ∧
    (retryRequest fn (n : Int) baseDelay args).calls.length = k := by
  obtain ⟨f, rfl⟩ : ∃ f, n = f + 1 := ⟨n - 1, by omega⟩
  rw [retryRequest_eq_loop]
  have h := retryLoop_succAt fn ((f + 1 : Nat) : Int) baseDelay args (k - 1) v
    hpre hsucc f 0 (by omega) (by omega) (by push_cast; ring)
  exact ⟨h.1, by rw [h.2]; omega⟩

/-- Witness for C6: `failThenOk` fails on attempt 1 and succeeds on attempt 2;
with `n = 3` the wrapper makes exactly 2 calls and returns `num 7`. -/
theorem retryRequest_succeeds_at_k_witness :
    (retryRequest failThenOk ((3 : Nat) : Int) 300 []).result =
      Except.ok (JSVal.num 7) ∧
    (retryRequest failThenOk ((3 : Nat) : Int) 300 []).calls.length = 2 :=
  retryRequest_succeeds_at_k failThenOk 300 [] (JSVal.num 7) 3 2
    (by norm_num) (by norm_num)
    (by intro j hj
        have hj0 : j = 0 := by omega
        subst hj0
        exact ⟨"boom", rfl⟩) rfl

/-- C8: for `maxAttempts = n ≥ 1` the attempt indices of one invocation are
exactly `0, 1, …` in order (strictly increasing from 0), at least one and at
most `n` calls occur (the loop, a total function, always terminates), every
non-final call failed (no attempt ever follows a success), and the call
either returns the last attempt's success value or — after consuming the full
budget of `n` attempts — raises the terminal exhaustion error. -/
theorem retryRequest_attempts (fn : Nat → List JSVal → Except String JSVal)
    (baseDelay : Int) (args : List JSVal) (n : Nat) (hn : 1 ≤ n) :
    (retryRequest fn (n : Int) baseDelay args).calls.map Prod.fst =
      List.range (retryRequest fn (n : Int) baseDelay args).calls.length ∧
    1 ≤ (retryRequest fn (n : Int) baseDelay args).calls.length ∧
    (retryRequest fn (n : Int) baseDelay args).calls.length ≤ n ∧
    (∀ j : Nat,
      j + 1 < (retryRequest fn (n : Int) baseDelay args).calls.length →
      ∃ m, fn j args = Except.error m) ∧
    ((∃ v,
        fn ((retryRequest fn (n : Int) baseDelay args).calls.length - 1) args =
          Except.ok v ∧
        (retryRequest fn (n : Int) baseDelay args).result = Except.ok v) ∨
      (∃ m,
        fn ((retryRequest fn (n : Int) baseDelay args).calls.length - 1) args =
          Except.error m ∧
        (retryRequest fn (n : Int) baseDelay args).result =
          Except.error (exhaustedMsg (n : Int) m) ∧
        (retryRequest fn (n : Int) baseDelay args).calls.length = n)) := by
  obtain ⟨f, rfl⟩ : ∃ f, n = f + 1 := ⟨n - 1, by omega⟩
  rw [retryRequest_eq_loop]
  refine ⟨?_, ?_, ?_, ?_, ?_⟩
  · have h := retryLoop_calls_map_fst fn ((f + 1 : Nat) : Int) baseDelay args
      (f + 1) 0
    simpa [List.range_eq_range'] using h
  · exact retryLoop_calls_length_pos fn ((f + 1 : Nat) : Int) baseDelay args f 0
  · exact retryLoop_calls_length_le fn ((f + 1 : Nat) : Int) baseDelay args
      (f + 1) 0
  · intro j hj
    have h := retryLoop_nonfinal_fail fn ((f + 1 : Nat) : Int) baseDelay args
      (f + 1) 0 j hj
    simpa using h
  · have h := retryLoop_last_decides fn ((f + 1 : Nat) : Int) baseDelay args f 0
      (by push_cast; ring)
    simpa using h

/-- Witness for C8 at `fn = failThenOk`, `n = 2`. -/
theorem retryRequest_attempts_witness :
    (retryRequest failThenOk ((2 : Nat) : Int) 300 []).calls.map Prod.fst =
      List.range (retryRequest failThenOk ((2 : Nat) : Int) 300 []).calls.length ∧
    1 ≤ (retryRequest failThenOk ((2 : Nat) : Int) 300 []).calls.length ∧
    (retryRequest failThenOk ((2 : Nat) : Int) 300 []).calls.length ≤ 2 ∧
    (∀ j : Nat,
      j + 1 < (retryRequest failThenOk ((2 : Nat) : Int) 300 []).calls.length →
      ∃ m, failThenOk j [] = Except.error m) ∧
    ((∃ v,
        failThenOk
          ((retryRequest failThenOk ((2 : Nat) : Int) 300 []).calls.length - 1) [] =
          Except.ok v ∧
        (retryRequest failThenOk ((2 : Nat) : Int) 300 []).result = Except.ok v) ∨
      (∃ m,
        failThenOk
          ((retryRequest failThenOk ((2 : Nat) : Int) 300 []).calls.length - 1) [] =
          Except.error m ∧
        (retryRequest failThenOk ((2 : Nat) : Int) 300 []).result =
          Except.error (exhaustedMsg ((2 : Nat) : Int) m) ∧
        (retryRequest failThenOk ((2 : Nat) : Int) 300 []).calls.length = 2)) :=
  retryRequest_attempts failThenOk 300 [] 2 (by norm_num)

/-- C10: on every attempt, `retryRequest` passes the caller's argument list
unchanged to the wrapped function, and on a cache miss `cacheRequest` passes
the caller's argument list unchanged to its wrapped function (so every
underlying call of the invocation received exactly the caller's arguments). -/
theorem wrappers_forward_args (fn : Nat → List JSVal → Except String JSVal)
    (maxRetries baseDelay ttl : Int) (st : CacheState) (now : Int)
    (args : List JSVal) (fnT : List JSVal → Trace)
    (hfnT : (fnT args).calls.map Prod.snd =
      List.replicate (fnT args).calls.length args) :
    (retryRequest fn maxRetries baseDelay args).calls.map Prod.snd =
      List.replicate (retryRequest fn maxRetries baseDelay args).calls.length
        args ∧
    (cacheRequest fnT ttl st now args).1.calls.map Prod.snd =
      List.replicate (cacheRequest fnT ttl st now args).1.calls.length args := by
  constructor
  · unfold retryRequest
    exact retryLoop_calls_map_snd fn maxRetries baseDelay args maxRetries.toNat 0
  · by_cases hhit : st.cache.truthy ∧ now - st.timestamp < ttl
    · rw [cacheRequest_hit fnT ttl st now args hhit]
      simp
    · obtain ⟨h1, _⟩ := cacheRequest_miss fnT ttl st now args hhit
      rw [h1, hfnT]

/-- Witness for C10: `failThenOk` under retry with argument list `[num 1]`,
and a plain producer under the cache with the same argument list. -/
theorem wrappers_forward_args_witness :
    (retryRequest failThenOk 3 300 [JSVal.num 1]).calls.map Prod.snd =
      List.replicate (retryRequest failThenOk 3 300 [JSVal.num 1]).calls.length
        [JSVal.num 1] ∧
    (cacheRequest (pureProducer okSeven) 5000 initialCacheState 0
        [JSVal.num 1]).1.calls.map Prod.snd =
      List.replicate
        (cacheRequest (pureProducer okSeven) 5000 initialCacheState 0
          [JSVal.num 1]).1.calls.length [JSVal.num 1] :=
  wrappers_forward_args failThenOk 3 300 5000 initialCacheState 0 [JSVal.num 1]
    (pureProducer okSeven) rfl

end DecoratorSpec
